import Mathlib

/-!
Verification of the raildata Go library against its design specification.

The Go sources are shallowly embedded:

* `find.go` (generic finder with exact and fuzzy lookup) becomes pure
  functions over `FinderImpl`;
* `codes.go` (station/line catalogs, alias tables, map construction)
  becomes list-backed maps whose lookup keeps Go's
  "later insertion wins" semantics;
* `api/api.go` (`ParseResponse` / `parseErrorResponse`) becomes a pure
  function parameterized by an abstract JSON decoder;
* `client.go` (`request` / `refreshToken`) becomes explicit state passing
  over a `ClientState`, with the network modeled as an oracle indexed by
  call number.  The mutex in `refreshToken` makes its critical section
  atomic, so concurrent refreshes are modeled as a sequential composition
  of `refreshToken` steps.

Go strings in the relevant code paths are ASCII (catalog names, codes,
tokens, error messages), so a Go string is modeled as a Lean `String`;
Go's byte indexing and byte length coincide with `String.data` indexing
and `String.length` on ASCII data, and Go's Unicode `strings.ToLower`
coincides with Lean's ASCII `String.toLower`.
-/

namespace Raildata

/-! ## Reference definition: longest common subsequence

`lcsLen` is the textbook recursive LCS length; the theorems
`lcsLen_exists` and `length_le_lcsLen` prove that it really is the
greatest length of a common subsequence (`List.Sublist`) of the two
lists. -/

/-- Inner recursion of `lcsLen`: `lcsLenGo lcsXs a ys` is the LCS
length of `a :: xs` and `ys`, where `lcsXs` computes the LCS length of
`xs` against any list.  Splitting the recursion this way keeps `lcsLen`
structurally recursive (hence evaluable by the kernel); the one-step
unfolding `lcsLen_cons_cons` below recovers the standard recursion. -/
def lcsLenGo {β : Type} [DecidableEq β] (lcsXs : List β → Nat) (a : β) :
    List β → Nat
  | [] => 0
  | b :: ys =>
    if a = b then lcsXs ys + 1
    else max (lcsXs (b :: ys)) (lcsLenGo lcsXs a ys)

/-- Reference LCS length (the standard recursion; see `lcsLen_cons_cons`,
`lcsLen_exists` and `length_le_lcsLen`). -/
def lcsLen {β : Type} [DecidableEq β] : List β → List β → Nat
  | [], _ => 0
  | a :: xs, ys => lcsLenGo (lcsLen xs) a ys

/-! ## fuzzyMatch (find.go)

Go's `fuzzyMatch` fills a flat `(len(candidate)+1) × (len(input)+1)`
array in row-major order; each cell is written once, from cells that are
already final (earlier in row-major order) or never written (row 0 /
column 0, which keep the zero initialization).  The embedding
`fuzzyMatchCell` is therefore the defining recurrence of that array:
`fuzzyMatchCell input candidate row col` is the value stored at index
`row*(len(input)+1) + col`, with `input[col-1]`/`candidate[row-1]`
appearing here as `input[col]?`/`candidate[row]?` on the decremented
pattern variables. -/

/-- One row of the `matchLen` array: `fuzzyMatchRow input candidate
prev row col` is the value written at cell `(row+1, col)` when `prev`
is the (already final) row `row`.  `prev col` is `matchLen[idx-rs-1]`
(diagonal), `prev (col+1)` is `matchLen[idx-rs]` (up), and the
recursive call is `matchLen[idx-1]` (left, the cell just written). -/
def fuzzyMatchRow {β : Type} [DecidableEq β] (input candidate : List β)
    (prev : Nat → Nat) (row : Nat) : Nat → Nat
  | 0 => 0
  | col + 1 =>
    let m := if input[col]? = candidate[row]? then 1 + prev col else 0
    max (max (max m (prev (col + 1))) (fuzzyMatchRow input candidate prev row col))
      (prev col)

/-- Value of the cell `(row, col)` of the `matchLen` array of
`fuzzyMatch` in `find.go` (row 0 and column 0 keep their zero
initialization; they are never written by the loops). -/
def fuzzyMatchCell {β : Type} [DecidableEq β] (input candidate : List β) :
    Nat → Nat → Nat
  | 0, _ => 0
  | row + 1, col =>
    fuzzyMatchRow input candidate (fuzzyMatchCell input candidate row) row col

/-- `fuzzyMatch` from `find.go`: the bottom-right corner of the array,
`matchLen[rs*cs-1]`, i.e. the cell `(len(candidate), len(input))`. -/
def fuzzyMatch {β : Type} [DecidableEq β] (input candidate : List β) : Nat :=
  fuzzyMatchCell input candidate candidate.length input.length

/-! ## Strings and Go maps

`toLower` models Go's `strings.ToLower`; on the ASCII data of this
library it is character-wise lowering.  (It is written via `List.map`
on `String.data` so that the kernel can evaluate it.)

A Go map built by inserting entries in program order is modeled as the
list of insertions; `mapFind` returns the value of the last insertion
for the key, which is exactly the final content of the Go map. -/

def toLower (s : String) : String := ⟨s.data.map Char.toLower⟩

def mapFind {I : Type} (m : List (String × I)) (k : String) : Option I :=
  m.foldl (fun acc p => if p.1 = k then some p.2 else acc) none

/-- `makeMap` from `codes.go`: one lowercased key per element, inserted
in list order. -/
def makeMap {I : Type} (input : List I) (getKey : I → String) :
    List (String × I) :=
  input.map (fun v => (toLower (getKey v), v))

/-- `makeMmap` from `codes.go`: several lowercased keys per element,
inserted in list order. -/
def makeMmap {I : Type} (input : List I) (getKeys : I → List String) :
    List (String × I) :=
  input.flatMap (fun v => (getKeys v).map (fun k => (toLower k, v)))

/-! ## The generic finder (find.go) -/

/-- `finderImpl` from `find.go`.  The code type `C ~string` is modeled
as `String`; the `synthesize` callback returns the value (the Go pointer
indirection is dropped). -/
structure FinderImpl (T : Type) where
  byCode : List (String × T)
  byName : List (String × T)
  byAbbr : List (String × T)
  list : List T
  getCandidates : T → List String
  synthesize : Option String → Option String → T
  code : Option String
  name : Option String

def WithCode {T : Type} (f : FinderImpl T) (code : String) : FinderImpl T :=
  { f with code := some code }

def WithName {T : Type} (f : FinderImpl T) (name : String) : FinderImpl T :=
  { f with name := some name }

/-- `fuzzyFind` from `find.go`: best entity over all candidate strings,
maximizing the `fuzzyMatch` length, breaking ties by shorter candidate
string.  The accumulator is Go's `(best, matchLen, strLen)`. -/
def fuzzyFind {T : Type} (input : String) (list : List T)
    (getCandidates : T → List String) : Option T × Nat :=
  let fin := list.foldl (fun acc item =>
    (getCandidates item).foldl (fun acc cand =>
      let candLc := toLower cand
      let ml := fuzzyMatch input.data candLc.data
      if ml > acc.2.1 ∨ (ml = acc.2.1 ∧ candLc.length < acc.2.2) then
        (some item, ml, candLc.length)
      else acc) acc) ((none : Option T), 0, 0)
  (fin.1, fin.2.1)

/-- `Search` from `find.go`: code table, then name/alias table, then
abbreviation table, then thresholded fuzzy match. -/
def Search {T : Type} (f : FinderImpl T) : Option T :=
  let byCodeHit := match f.code with
    | some code => mapFind f.byCode (toLower code)
    | none => none
  match byCodeHit with
  | some item => some item
  | none =>
    match f.name with
    | some name =>
      let nameLc := toLower name
      match mapFind f.byName nameLc with
      | some item => some item
      | none =>
        match mapFind f.byAbbr nameLc with
        | some item => some item
        | none =>
          let r := fuzzyFind nameLc f.list f.getCandidates
          if r.2 > 2 ∧ r.2 ≥ nameLc.length / 4 then r.1 else none
    | none => none

/-- `SearchOrSynthesize` from `find.go`. -/
def SearchOrSynthesize {T : Type} (f : FinderImpl T) : T :=
  match Search f with
  | some item => item
  | none => f.synthesize f.code f.name

/-! ## The station and line catalogs (codes.go) -/

abbrev StationCode := String

structure Station where
  Code : StationCode
  Name : String
  ShortName : String
deriving DecidableEq

abbrev LineCode := String

/-- A line; `Color` keeps the HTML literal of `MustParseHtmlColor`
(color parsing is out of the spec's scope). -/
structure Line where
  Code : LineCode
  Name : String
  Abbreviation : String
  Color : String
  OtherAbbrs : List String
deriving DecidableEq

/-- `Stations` from `codes.go`. -/
def Stations : List Station := [
  Station.mk "AM" "Aberdeen-Matawan" "Matawan",
  Station.mk "AB" "Absecon" "Absecon",
  Station.mk "AZ" "Allendale" "Allendale",
  Station.mk "AH" "Allenhurst" "Allenhurst",
  Station.mk "AS" "Anderson Street" "Anderson St.",
  Station.mk "AN" "Annandale" "Annandale",
  Station.mk "AP" "Asbury Park" "Asbury Park",
  Station.mk "AO" "Atco" "Atco",
  Station.mk "AC" "Atlantic City Rail Terminal" "Atlantic City",
  Station.mk "AV" "Avenel" "Avenel",
  Station.mk "BA" "BWI Thurgood Marshall Airport" "BWI Airport",
  Station.mk "BL" "Baltimore Station" "Baltimore",
  Station.mk "BI" "Basking Ridge" "Basking Ridge",
  Station.mk "BH" "Bay Head" "Bay Head",
  Station.mk "MC" "Bay Street" "Bay Street",
  Station.mk "BS" "Belmar" "Belmar",
  Station.mk "BY" "Berkeley Heights" "Berkeley Hts",
  Station.mk "BV" "Bernardsville" "Bernardsville",
  Station.mk "BM" "Bloomfield" "Bloomfield",
  Station.mk "BN" "Boonton" "Boonton",
  Station.mk "BK" "Bound Brook" "Bound Brook",
  Station.mk "BB" "Bradley Beach" "Bradley Beach",
  Station.mk "BU" "Brick Church" "Brick Church",
  Station.mk "BW" "Bridgewater" "Bridgewater",
  Station.mk "BF" "Broadway Fair Lawn" "Broadway-Fl",
  Station.mk "CB" "Campbell Hall" "Campbell Hall",
  Station.mk "CM" "Chatham" "Chatham",
  Station.mk "CY" "Cherry Hill" "Cherry Hill",
  Station.mk "IF" "Clifton" "Clifton",
  Station.mk "CN" "Convent Station" "Convent Stn",
  Station.mk "XC" "Cranford" "Cranford",
  Station.mk "DL" "Delawanna" "Delawanna",
  Station.mk "DV" "Denville" "Denville",
  Station.mk "DO" "Dover" "Dover",
  Station.mk "DN" "Dunellen" "Dunellen",
  Station.mk "EO" "East Orange" "East Orange",
  Station.mk "ED" "Edison" "Edison",
  Station.mk "EH" "Egg Harbor City" "Egg Harbor",
  Station.mk "EL" "Elberon" "Elberon",
  Station.mk "EZ" "Elizabeth" "Elizabeth",
  Station.mk "EN" "Emerson" "Emerson",
  Station.mk "EX" "Essex Street" "Essex Street",
  Station.mk "FW" "Fanwood" "Fanwood",
  Station.mk "FH" "Far Hills" "Far Hills",
  Station.mk "FE" "Finderne" "Finderne",
  Station.mk "GD" "Garfield" "Garfield",
  Station.mk "GW" "Garwood" "Garwood",
  Station.mk "GI" "Gillette" "Gillette",
  Station.mk "GL" "Gladstone" "Gladstone",
  Station.mk "GG" "Glen Ridge" "Glen Ridge",
  Station.mk "GK" "Glen Rock Boro Hall" "Glen Rock Boro",
  Station.mk "RS" "Glen Rock Main Line" "Glen Rock Main",
  Station.mk "GA" "Great Notch" "Great Notch",
  Station.mk "HQ" "Hackettstown" "Hackettstown",
  Station.mk "HL" "Hamilton" "Hamilton",
  Station.mk "HN" "Hammonton" "Hammonton",
  Station.mk "RM" "Harriman" "Harriman",
  Station.mk "HW" "Hawthorne" "Hawthorne",
  Station.mk "HZ" "Hazlet" "Hazlet",
  Station.mk "HG" "High Bridge" "High Bridge",
  Station.mk "HI" "Highland Avenue" "Highland Ave.",
  Station.mk "HD" "Hillsdale" "Hillsdale",
  Station.mk "HB" "Hoboken" "Hoboken",
  Station.mk "UF" "Hohokus" "Hohokus",
  Station.mk "JA" "Jersey Avenue" "Jersey Ave.",
  Station.mk "KG" "Kingsland" "Kingsland",
  Station.mk "HP" "Lake Hopatcong" "Lake Hopatcong",
  Station.mk "ON" "Lebanon" "Lebanon",
  Station.mk "LP" "Lincoln Park" "Lincoln Park",
  Station.mk "LI" "Linden" "Linden",
  Station.mk "LW" "Lindenwold" "Lindenwold",
  Station.mk "FA" "Little Falls" "Little Falls",
  Station.mk "LS" "Little Silver" "Little Silver",
  Station.mk "LB" "Long Branch" "Long Branch",
  Station.mk "LN" "Lyndhurst" "Lyndhurst",
  Station.mk "LY" "Lyons" "Lyons",
  Station.mk "MA" "Madison" "Madison",
  Station.mk "MZ" "Mahwah" "Mahwah",
  Station.mk "SQ" "Manasquan" "Manasquan",
  Station.mk "MW" "Maplewood" "Maplewood",
  Station.mk "XU" "Meadowlands" "Meadowlands",
  Station.mk "MP" "Metropark" "Metropark",
  Station.mk "MU" "Metuchen" "Metuchen",
  Station.mk "MI" "Middletown NJ" "Middletown NJ",
  Station.mk "MD" "Middletown NY" "Middletown NY",
  Station.mk "MB" "Millburn" "Millburn",
  Station.mk "GO" "Millington" "Millington",
  Station.mk "MK" "Monmouth Park" "Monmouth Park",
  Station.mk "HS" "Montclair Heights" "Montclair Hts.",
  Station.mk "UV" "Montclair State U" "MSU",
  Station.mk "ZM" "Montvale" "Montvale",
  Station.mk "MX" "Morris Plains" "Morris Plains",
  Station.mk "MR" "Morristown" "Morristown",
  Station.mk "HV" "Mount Arlington" "Mt. Arlington",
  Station.mk "OL" "Mount Olive" "Mount Olive",
  Station.mk "TB" "Mount Tabor" "Mount Tabor",
  Station.mk "MS" "Mountain Avenue" "Mountain Ave",
  Station.mk "ML" "Mountain Lakes" "Mountain Lakes",
  Station.mk "MT" "Mountain Station" "Mountain Stn",
  Station.mk "MV" "Mountain View" "Mountain View",
  Station.mk "MH" "Murray Hill" "Murray Hill",
  Station.mk "NN" "Nanuet" "Nanuet",
  Station.mk "NT" "Netcong" "Netcong",
  Station.mk "NE" "Netherwood" "Netherwood",
  Station.mk "NH" "New Bridge Landing" "New Bridge Ldg",
  Station.mk "NB" "New Brunswick" "New Brunswick",
  Station.mk "NC" "New Carrollton Station" "New Carrollton",
  Station.mk "NV" "New Providence" "New Providence",
  Station.mk "NY" "New York Penn Station" "New York",
  Station.mk "NA" "Newark Airport" "Newark Airport",
  Station.mk "ND" "Newark Broad Street" "Newark Broad",
  Station.mk "NP" "Newark Penn Station" "Newark Penn",
  Station.mk "OR" "North Branch" "North Branch",
  Station.mk "NZ" "North Elizabeth" "North Elizab.",
  Station.mk "NF" "North Philadelphia" "",
  Station.mk "OD" "Oradell" "Oradell",
  Station.mk "OG" "Orange" "Orange",
  Station.mk "OS" "Otisville" "Otisville",
  Station.mk "PV" "Park Ridge" "Park Ridge",
  Station.mk "PS" "Passaic" "Passaic",
  Station.mk "RN" "Paterson" "Paterson",
  Station.mk "PC" "Peapack" "Peapack",
  Station.mk "PQ" "Pearl River" "Pearl River",
  Station.mk "PN" "Pennsauken" "Pennsauken",
  Station.mk "PE" "Perth Amboy" "Perth Amboy",
  Station.mk "PH" "Philadelphia" "Philadelphia",
  Station.mk "PF" "Plainfield" "Plainfield",
  Station.mk "PL" "Plauderville" "Plauderville",
  Station.mk "PP" "Point Pleasant Beach" "Point Pleasant",
  Station.mk "PO" "Port Jervis" "Port Jervis",
  Station.mk "PR" "Princeton" "Princeton",
  Station.mk "PJ" "Princeton Junction" "Princeton Jct.",
  Station.mk "FZ" "Radburn Fair Lawn" "Radburn-Fl",
  Station.mk "RH" "Rahway" "Rahway",
  Station.mk "RY" "Ramsey Main St" "Ramsey",
  Station.mk "17" "Ramsey Route 17" "Ramsey Rt 17",
  Station.mk "RA" "Raritan" "Raritan",
  Station.mk "RB" "Red Bank" "Red Bank",
  Station.mk "RW" "Ridgewood" "Ridgewood",
  Station.mk "RG" "River Edge" "River Edge",
  Station.mk "RL" "Roselle Park" "Roselle Park",
  Station.mk "RF" "Rutherford" "Rutherford",
  Station.mk "CW" "Salisbury Mills-Cornwall" "Salisbury Mls",
  Station.mk "SC" "Secaucus Concourse" "",
  Station.mk "TS" "Secaucus Lower Lvl" "Secaucus",
  Station.mk "SE" "Secaucus Upper Lvl" "Secaucus",
  Station.mk "RT" "Short Hills" "Short Hills",
  Station.mk "XG" "Sloatsburg" "Sloatsburg",
  Station.mk "SM" "Somerville" "Somerville",
  Station.mk "CH" "South Amboy" "South Amboy",
  Station.mk "SO" "South Orange" "South Orange",
  Station.mk "LA" "Spring Lake" "Spring Lake",
  Station.mk "SV" "Spring Valley" "Spring Valley",
  Station.mk "SG" "Stirling" "Stirling",
  Station.mk "SF" "Suffern" "Suffern",
  Station.mk "ST" "Summit" "Summit",
  Station.mk "TE" "Teterboro" "Teterboro",
  Station.mk "TO" "Towaco" "Towaco",
  Station.mk "TR" "Trenton" "Trenton",
  Station.mk "TC" "Tuxedo" "Tuxedo",
  Station.mk "US" "Union" "Union",
  Station.mk "UM" "Upper Montclair" "Upp. Montclair",
  Station.mk "WK" "Waldwick" "Waldwick",
  Station.mk "WA" "Walnut Street" "Walnut Street",
  Station.mk "WS" "Washington Station" "Washington",
  Station.mk "WG" "Watchung Avenue" "Watchung Ave.",
  Station.mk "WT" "Watsessing Avenue" "Watsessing Ave",
  Station.mk "23" "Wayne-Route 23" "Wayne Route 23",
  Station.mk "WM" "Wesmont" "Wesmont",
  Station.mk "WF" "Westfield" "Westfield",
  Station.mk "WW" "Westwood" "Westwood",
  Station.mk "WH" "White House" "White House",
  Station.mk "WI" "Wilmington Station" "Wilmington",
  Station.mk "WR" "Wood Ridge" "Wood-Ridge",
  Station.mk "WB" "Woodbridge" "Woodbridge",
  Station.mk "WL" "Woodcliff Lake" "Woodcliff Lake"]

def stationAliases (code : String) : List String :=
  match code with
  | "AC" => ["Atlantic City Terminal"]
  | "BA" => ["B.W.I. Airport"]
  | "MC" => ["Bay Street (Montclair)"]
  | "BF" => ["Broadway"]
  | "CN" => ["Convent"]
  | "ED" => ["Edison Station"]
  | "FE" => ["Manville-Finderne"]
  | "GK" => ["Glen Rock (Boro Hall)"]
  | "RS" => ["Glen Rock (Main Line)"]
  | "RM" => ["Harriman Station"]
  | "UF" => ["Ho-Ho-Kus"]
  | "MI" => ["Middletown"]
  | "MD" => ["Middletown, NY"]
  | "UV" => ["Montclair State University"]
  | "MT" => ["Mountain Sta."]
  | "ND" => ["Newark Broad St.", "Newark Broad St"]
  | "NA" => ["Newark Int\x27l Airport", "Newark Airport Railroad Station"]
  | "NY" => ["Penn Station New York"]
  | "PN" => ["Pennsauken Transit Center"]
  | "PH" => ["Philadelphia 30th St.", "30th St. Phl."]
  | "PR" => ["Princeton Station"]
  | "FZ" => ["Radburn"]
  | "17" => ["Route 17 Station", "Ramsey Route 17 Station"]
  | "CW" => ["Salisbury Mills"]
  | "TS" => ["Secaucus Junction", "Frank R Lautenberg Secaucus Lower Level"]
  | "SE" => ["Secaucus Station", "Frank R Lautenberg Secaucus Upper Level"]
  | "TR" => ["Trenton Station", "Trenton Transit Center"]
  | "US" => ["Union Station"]
  | "WA" => ["Walnut Street (Montclair)"]
  | "WT" => ["Watsessing Avenue (Bloomfield)"]
  | "23" => ["Wayne/Route 23 Transit Center [RR]"]
  | _ => []

def Lines : List Line := [
  Line.mk "AC" "Atlantic City Line" "ACRL" "#075AAA" ["ATLC"],
  Line.mk "MC" "Montclair-Boonton Line" "MOBO" "#E66859" ["BNTN", "BNTNM", "MNBTN"],
  Line.mk "BC" "Bergen County Line" "BERG" "#FFD411" ["MNBN"],
  Line.mk "ML" "Main Line" "MAIN" "#FFD411" ["MNBN"],
  Line.mk "ME" "Morris & Essex Line" "M&E" "#08A652" ["MNE"],
  Line.mk "GS" "Gladstone Branch" "M&E" "#A4C9AA" ["MNEG"],
  Line.mk "NE" "Northeast Corridor Line" "NEC" "#DD3439" [],
  Line.mk "NC" "North Jersey Coast Line" "NJCL" "#03A3DF" ["NJCLL"],
  Line.mk "PV" "Pascack Valley Line" "PASC" "#94219A" [],
  Line.mk "PR" "Princeton Branch" "PRIN" "#DD3439" [],
  Line.mk "RV" "Raritan Valley Line" "RARV" "#F2A537" [],
  Line.mk "SL" "BetMGM Meadowlands" "BMGM" "#C1AA72" [],
  Line.mk "AM" "Amtrak" "AMTK" "#FFFF00" [],
  Line.mk "SP" "Septa" "SEPTA" "#1F4FA3" []]

def lineAliases (code : String) : List String :=
  match code with
  | "AC" => ["Atlantic City Rail Line", "Atl. City Line"]
  | "MC" => ["Montclair-Boonton"]
  | "BC" => ["Main/Bergen County Line", "Bergen Co. Line"]
  | "ML" => ["Port Jervis Line"]
  | "ME" => ["Morristown Line"]
  | "NE" => ["Northeast Corridor", "Northeast Corrdr"]
  | "NC" => ["No Jersey Coast"]
  | "PV" => ["Pascack Valley"]
  | "PR" => ["Princeton Shuttle"]
  | "RV" => ["Raritan Valley"]
  | _ => []

def stationsByCode : List (String × Station) :=
  makeMap Stations (fun s => s.Code)

def stationsByName : List (String × Station) :=
  makeMmap Stations (fun s => s.Name :: stationAliases s.Code)

def stationsByShortName : List (String × Station) :=
  makeMap Stations (fun s => s.ShortName)

def linesByCode : List (String × Line) :=
  makeMap Lines (fun l => l.Code)

def linesByName : List (String × Line) :=
  makeMmap Lines (fun l => l.Name :: lineAliases l.Code)

def linesByAbbreviation : List (String × Line) :=
  makeMmap Lines (fun l => l.Abbreviation :: l.OtherAbbrs)

/-- `FindStation` from `codes.go`. -/
def FindStation : FinderImpl Station :=
  { byCode := stationsByCode
    byName := stationsByName
    byAbbr := stationsByShortName
    list := Stations
    getCandidates := fun s => [s.Name, s.ShortName]
    synthesize := fun code name =>
      let outCode := match code with
        | none => "XX"
        | some c => c
      let outName := match name with
        | none => "Unknown " ++ outCode
        | some n => n
      { Code := outCode, Name := outName,
        ShortName := outName.take (min 14 outName.length) }
    code := none
    name := none }

/-- `FindLine` from `codes.go`; the Go zero values of `Color` and
`OtherAbbrs` in the synthesized line are the empty literal and `[]`. -/
def FindLine : FinderImpl Line :=
  { byCode := linesByCode
    byName := linesByName
    byAbbr := linesByAbbreviation
    list := Lines
    getCandidates := fun l => [l.Name, l.Abbreviation]
    synthesize := fun code name =>
      let outCode := match code with
        | none => "XX"
        | some c => c
      let outName := match name with
        | none => "Unknown " ++ outCode
        | some n => n
      { Code := outCode, Name := outName,
        Abbreviation := "XX" ++ outCode, Color := "", OtherAbbrs := [] }
    code := none
    name := none }

/-- A minimal finder whose single entity carries exactly one candidate
string, used to exercise the fuzzy-match acceptance threshold of
`Search` on its own. -/
def soleCandidateFinder (cand : String) : FinderImpl Station :=
  { byCode := []
    byName := []
    byAbbr := []
    list := [Station.mk "ZZ" cand ""]
    getCandidates := fun s => [s.Name]
    synthesize := fun _ _ => Station.mk "" "" ""
    code := none
    name := none }

/-! ## Typed errors (errors/errors.go) and response parsing (api/api.go)

The sentinel error values of `errors.go` and the wrapped errors produced
by `api.go` become the constructors of `ApiError`.  Go's
`errors.Is(err, InvalidTokenError)` is a comparison with the sentinel
value (no wrapped error in this code base ever wraps the sentinel), so
it is modeled by matching on the `invalidToken` constructor.

JSON decoding is abstracted: `decode` stands for `json.Unmarshal` into
the method's response shape (`none` = parse failure), `decodeEnvelope`
for decoding the strict error envelope and extracting `errorMessage`
(`none` = the envelope cannot be parsed).  Reading the response body is
assumed to succeed (the `io.ReadAll` error branches are transport
failures outside the parsing logic under test). -/

inductive ApiError where
  | badCredentials
  | missingCredentials
  | invalidToken
  | railDataError (message : String)
  | statusError (method : String) (status : Nat)
  | decodeError (method : String)
  | transportError (method : String)
deriving DecidableEq

/-- `parseErrorResponse` from `api/api.go`, for a non-2xx response whose
decoded error envelope is `errorMessage`. -/
def parseErrorResponse (name : String) (status : Nat)
    (errorMessage : Option String) : ApiError :=
  match errorMessage with
  | none => ApiError.statusError name status
  | some msg =>
    if msg = "Invalid token." then ApiError.invalidToken
    else ApiError.railDataError msg

/-- `ParseResponse` from `api/api.go`. -/
def ParseResponse {O : Type} (name : String) (decode : String → Option O)
    (decodeEnvelope : String → Option String) (status : Nat)
    (body : String) : Except ApiError O :=
  if status < 200 ∨ 300 ≤ status then
    Except.error (parseErrorResponse name status (decodeEnvelope body))
  else if body.length = 0 then
    Except.error ApiError.missingCredentials
  else
    match decode body with
    | some o => Except.ok o
    | none => Except.error (ApiError.decodeError name)

/-! ## The token-managed request pipeline (client.go)

`raildataClient` carries credentials and the current token (the HTTP
client, base URL and listener list do not influence the verified logic;
listener notification is fire-and-forget and does not touch the store).
The network is an oracle: `exec n t` is the result of the `n`-th
primary-endpoint call of one `request` invocation when the token set on
the payload is `t`; `getTok n` is the result of the `n`-th call to the
token-issuance endpoint, and the issuance-call counter is threaded
through so that network calls can be counted.

`refreshToken` holds the client mutex for its whole check-and-call
section, so its body is atomic; concurrent refreshes serialize, and are
modeled by `refreshRace`, the sequential composition of the callers'
critical sections. -/

structure GetTokenResponse where
  Authenticated : String
  UserToken : String
deriving DecidableEq

structure Credentials where
  username : String
  password : String
deriving DecidableEq

structure ClientState where
  credentials : Option Credentials
  token : String
deriving DecidableEq

/-- `refreshToken` from `client.go`: returns the Go error result, the
state after the call, and the updated issuance-call counter. -/
def refreshToken (getTok : Nat → Except ApiError GetTokenResponse)
    (s : ClientState) (calls : Nat) (oldToken : String) :
    Except ApiError Unit × ClientState × Nat :=
  match s.credentials with
  | none => (Except.error ApiError.missingCredentials, s, calls)
  | some _ =>
    if s.token ≠ oldToken then (Except.ok (), s, calls)
    else
      match getTok calls with
      | Except.error e => (Except.error e, s, calls + 1)
      | Except.ok output =>
        if output.Authenticated ≠ "True" then
          (Except.error ApiError.badCredentials, s, calls + 1)
        else
          (Except.ok (), { s with token := output.UserToken }, calls + 1)

/-- `request` from `client.go`: read the token, set it on the payload
(the token argument of `exec`), execute; on `InvalidToken` refresh and
either propagate the refresh failure or re-read the token and execute
exactly once more. -/
def request {O : Type} (exec : Nat → String → Except ApiError O)
    (getTok : Nat → Except ApiError GetTokenResponse) (s : ClientState) :
    Except ApiError O × ClientState :=
  let token := s.token
  match exec 0 token with
  | Except.error ApiError.invalidToken =>
    match refreshToken getTok s 0 token with
    | (Except.error e, s2, _) => (Except.error e, s2)
    | (Except.ok _, s2, _) => (exec 1 s2.token, s2)
  | out => (out, s)

/-- Sequential composition of the critical sections of `n` concurrent
callers that all observed the token `stale` and race into
`refreshToken`; returns their results, the final state and the final
issuance-call counter. -/
def refreshRace (getTok : Nat → Except ApiError GetTokenResponse)
    (stale : String) :
    Nat → ClientState → Nat →
      List (Except ApiError Unit) × ClientState × Nat
  | 0, s, calls => ([], s, calls)
  | n + 1, s, calls =>
    let r := refreshToken getTok s calls stale
    let rest := refreshRace getTok stale n r.2.1 r.2.2
    (r.1 :: rest.1, rest.2.1, rest.2.2)

/-! ## Helper lemmas -/

variable {β : Type} [DecidableEq β]

theorem lcsLen_nil_left (ys : List β) : lcsLen [] ys = 0 := rfl

theorem lcsLen_nil_right (xs : List β) : lcsLen xs [] = 0 := by
  cases xs <;> rfl

theorem lcsLen_cons_cons (a b : β) (xs ys : List β) :
    lcsLen (a :: xs) (b :: ys) =
      if a = b then lcsLen xs ys + 1
      else max (lcsLen xs (b :: ys)) (lcsLen (a :: xs) ys) := rfl

/-- Some common subsequence realizes the length `lcsLen`. -/
theorem lcsLen_exists (xs : List β) : ∀ ys : List β,
    ∃ zs : List β, zs.Sublist xs ∧ zs.Sublist ys ∧ zs.length = lcsLen xs ys := by
  induction xs with
  | nil =>
    intro ys
    exact ⟨[], List.nil_sublist _, List.nil_sublist _, by simp [lcsLen_nil_left]⟩
  | cons a xs ihx =>
    intro ys
    induction ys with
    | nil =>
      exact ⟨[], List.nil_sublist _, List.nil_sublist _, by simp [lcsLen_nil_right]⟩
    | cons b ys ihy =>
      by_cases hab : a = b
      · subst hab
        obtain ⟨zs, h1, h2, h3⟩ := ihx ys
        refine ⟨a :: zs, List.Sublist.cons₂ a h1, List.Sublist.cons₂ a h2, ?_⟩
        simp [lcsLen_cons_cons, h3]
      · rcases Nat.le_total (lcsLen xs (b :: ys)) (lcsLen (a :: xs) ys) with hle | hle
        · obtain ⟨zs, h1, h2, h3⟩ := ihy
          refine ⟨zs, h1, h2.cons b, ?_⟩
          rw [lcsLen_cons_cons, if_neg hab, Nat.max_eq_right hle, h3]
        · obtain ⟨zs, h1, h2, h3⟩ := ihx (b :: ys)
          refine ⟨zs, h1.cons a, h2, ?_⟩
          rw [lcsLen_cons_cons, if_neg hab, Nat.max_eq_left hle, h3]

/-- Every common subsequence is no longer than `lcsLen`. -/
theorem length_le_lcsLen (xs : List β) : ∀ (ys zs : List β),
    zs.Sublist xs → zs.Sublist ys → zs.length ≤ lcsLen xs ys := by
  induction xs with
  | nil =>
    intro ys zs hx _
    rw [List.sublist_nil.mp hx]
    simp
  | cons a xs ihx =>
    intro ys
    induction ys with
    | nil =>
      intro zs _ hy
      rw [List.sublist_nil.mp hy]
      simp
    | cons b ys ihy =>
      intro zs hx hy
      by_cases hab : a = b
      · subst hab
        rw [lcsLen_cons_cons, if_pos rfl]
        cases hx with
        | cons _ hx' =>
          cases hy with
          | cons _ hy' =>
            exact Nat.le_succ_of_le (ihx ys zs hx' hy')
          | cons₂ _ hy' =>
            rename_i zs'
            have hzx : zs'.Sublist xs :=
              ((List.sublist_cons_self a zs').trans hx')
            simpa using Nat.succ_le_succ (ihx ys zs' hzx hy')
        | cons₂ _ hx' =>
          rename_i zs'
          have hzy : zs'.Sublist ys := by
            cases hy with
            | cons _ hy' => exact (List.sublist_cons_self a zs').trans hy'
            | cons₂ _ hy' => exact hy'
          simpa using Nat.succ_le_succ (ihx ys zs' hx' hzy)
      · rw [lcsLen_cons_cons, if_neg hab]
        cases hx with
        | cons _ hx' =>
          exact Nat.le_max_left _ _ |>.trans' (ihx (b :: ys) zs hx' hy)
        | cons₂ _ hx' =>
          rename_i zs'
          cases hy with
          | cons _ hy' =>
            exact Nat.le_max_right _ _ |>.trans'
              (ihy (a :: zs') (List.Sublist.cons₂ a hx') hy')
          | cons₂ _ hy' => exact absurd rfl hab

theorem lcsLen_reverse (xs ys : List β) :
    lcsLen xs.reverse ys.reverse = lcsLen xs ys := by
  apply Nat.le_antisymm
  · obtain ⟨zs, h1, h2, h3⟩ := lcsLen_exists xs.reverse ys.reverse
    calc lcsLen xs.reverse ys.reverse = zs.length := h3.symm
      _ = zs.reverse.length := by simp
      _ ≤ lcsLen xs ys := by
          apply length_le_lcsLen
          · simpa using h1.reverse
          · simpa using h2.reverse
  · obtain ⟨zs, h1, h2, h3⟩ := lcsLen_exists xs ys
    calc lcsLen xs ys = zs.length := h3.symm
      _ = zs.reverse.length := by simp
      _ ≤ lcsLen xs.reverse ys.reverse :=
          length_le_lcsLen _ _ _ h1.reverse h2.reverse

theorem lcsLen_mono {xs xs' ys ys' : List β}
    (hx : xs.Sublist xs') (hy : ys.Sublist ys') :
    lcsLen xs ys ≤ lcsLen xs' ys' := by
  obtain ⟨zs, h1, h2, h3⟩ := lcsLen_exists xs ys
  rw [← h3]
  exact length_le_lcsLen _ _ _ (h1.trans hx) (h2.trans hy)

theorem lcsLen_cons_left_le (a : β) (xs ys : List β) :
    lcsLen (a :: xs) ys ≤ lcsLen xs ys + 1 := by
  obtain ⟨zs, h1, h2, h3⟩ := lcsLen_exists (a :: xs) ys
  rw [← h3]
  cases h1 with
  | cons _ h1' => exact Nat.le_succ_of_le (length_le_lcsLen _ _ _ h1' h2)
  | cons₂ _ h1' =>
    rename_i zs'
    have hzy : zs'.Sublist ys := (List.sublist_cons_self a zs').trans h2
    simpa using Nat.succ_le_succ (length_le_lcsLen _ _ _ h1' hzy)

theorem lcsLen_concat_left_le (a : β) (xs ys : List β) :
    lcsLen (xs ++ [a]) ys ≤ lcsLen xs ys + 1 := by
  have h := lcsLen_cons_left_le a xs.reverse ys.reverse
  rw [lcsLen_reverse] at h
  calc lcsLen (xs ++ [a]) ys
      = lcsLen (xs ++ [a]).reverse ys.reverse := (lcsLen_reverse _ _).symm
    _ = lcsLen (a :: xs.reverse) ys.reverse := by simp
    _ ≤ lcsLen xs ys + 1 := h

theorem lcsLen_concat_right_le (b : β) (xs ys : List β) :
    lcsLen xs (ys ++ [b]) ≤ lcsLen xs ys + 1 := by
  have h1 := lcsLen_exists xs (ys ++ [b])
  obtain ⟨zs, hz1, hz2, hz3⟩ := h1
  rw [← hz3]
  rw [List.sublist_append_iff] at hz2
  obtain ⟨r1, r2, rfl, hr1, hr2⟩ := hz2
  rcases List.sublist_singleton.mp hr2 with rfl | rfl
  · simpa using Nat.le_succ_of_le
      (length_le_lcsLen _ _ _ (by simpa using hz1) hr1)
  · have hxr : r1.Sublist xs := (List.sublist_append_left r1 [b]).trans hz1
    simpa using Nat.succ_le_succ (length_le_lcsLen _ _ _ hxr hr1)

theorem lcsLen_concat_concat (a b : β) (xs ys : List β) :
    lcsLen (xs ++ [a]) (ys ++ [b]) =
      if a = b then lcsLen xs ys + 1
      else max (lcsLen xs (ys ++ [b])) (lcsLen (xs ++ [a]) ys) := by
  have key : lcsLen (xs ++ [a]) (ys ++ [b]) =
      lcsLen (a :: xs.reverse) (b :: ys.reverse) := by
    rw [← lcsLen_reverse (xs ++ [a]) (ys ++ [b])]
    simp
  rw [key, lcsLen_cons_cons]
  by_cases hab : a = b
  · rw [if_pos hab, if_pos hab, lcsLen_reverse]
  · rw [if_neg hab, if_neg hab]
    congr 1
    · rw [← lcsLen_reverse xs (ys ++ [b])]
      simp
    · rw [← lcsLen_reverse (xs ++ [a]) ys]
      simp

theorem fuzzyMatchCell_zero_left (input candidate : List β) (col : Nat) :
    fuzzyMatchCell input candidate 0 col = 0 := rfl

theorem fuzzyMatchCell_zero_right (input candidate : List β) (row : Nat) :
    fuzzyMatchCell input candidate (row + 1) 0 = 0 := rfl

theorem fuzzyMatchCell_succ_succ (input candidate : List β) (row col : Nat) :
    fuzzyMatchCell input candidate (row + 1) (col + 1) =
      (fun m =>
        max (max (max m (fuzzyMatchCell input candidate row (col + 1)))
            (fuzzyMatchCell input candidate (row + 1) col))
          (fuzzyMatchCell input candidate row col))
      (if input[col]? = candidate[row]? then
          1 + fuzzyMatchCell input candidate row col
        else 0) := rfl

/-- The DP array of `fuzzyMatch` computes the LCS length of the
corresponding prefixes. -/
theorem fuzzyMatchCell_eq_lcsLen (input candidate : List β) :
    ∀ row, row ≤ candidate.length → ∀ col, col ≤ input.length →
      fuzzyMatchCell input candidate row col =
        lcsLen (input.take col) (candidate.take row) := by
  intro row
  induction row with
  | zero =>
    intro _ col _
    simp [fuzzyMatchCell_zero_left, lcsLen_nil_right]
  | succ row ihr =>
    intro hrow col
    induction col with
    | zero =>
      intro _
      simp [fuzzyMatchCell_zero_right, lcsLen_nil_left]
    | succ col ihc =>
      intro hcol
      have hrow' : row ≤ candidate.length := Nat.le_of_succ_le hrow
      have hcol' : col ≤ input.length := Nat.le_of_succ_le hcol
      have hc : col < input.length := hcol
      have hr : row < candidate.length := hrow
      have hgi : input[col]? = some input[col] := List.getElem?_eq_getElem hc
      have hgc : candidate[row]? = some candidate[row] :=
        List.getElem?_eq_getElem hr
      have htakei : input.take (col + 1) = input.take col ++ [input[col]] := by
        rw [List.take_succ, hgi]
        rfl
      have htakec : candidate.take (row + 1) =
          candidate.take row ++ [candidate[row]] := by
        rw [List.take_succ, hgc]
        rfl
      have e1 : fuzzyMatchCell input candidate row col =
          lcsLen (input.take col) (candidate.take row) := ihr hrow' col hcol'
      have e2 : fuzzyMatchCell input candidate row (col + 1) =
          lcsLen (input.take col ++ [input[col]]) (candidate.take row) := by
        rw [ihr hrow' (col + 1) hcol, htakei]
      have e3 : fuzzyMatchCell input candidate (row + 1) col =
          lcsLen (input.take col) (candidate.take row ++ [candidate[row]]) := by
        rw [ihc hcol', htakec]
      rw [fuzzyMatchCell_succ_succ]
      simp only [e1, e2, e3, hgi, hgc, htakei, htakec, lcsLen_concat_concat,
        Option.some.injEq]
      have hub1 : lcsLen (input.take col ++ [input[col]]) (candidate.take row) ≤
          lcsLen (input.take col) (candidate.take row) + 1 :=
        lcsLen_concat_left_le _ _ _
      have hub2 : lcsLen (input.take col) (candidate.take row ++ [candidate[row]]) ≤
          lcsLen (input.take col) (candidate.take row) + 1 :=
        lcsLen_concat_right_le _ _ _
      have hlb1 : lcsLen (input.take col) (candidate.take row) ≤
          lcsLen (input.take col ++ [input[col]]) (candidate.take row) :=
        lcsLen_mono (List.sublist_append_left _ _) (List.Sublist.refl _)
      have hlb2 : lcsLen (input.take col) (candidate.take row) ≤
          lcsLen (input.take col) (candidate.take row ++ [candidate[row]]) :=
        lcsLen_mono (List.Sublist.refl _) (List.sublist_append_left _ _)
      by_cases hab : input[col] = candidate[row]
      · simp only [if_pos hab]
        omega
      · simp only [if_neg hab]
        omega

/-- `fuzzyMatch` computes the reference LCS length. -/
theorem fuzzyMatch_eq_lcsLen (input candidate : List β) :
    fuzzyMatch input candidate = lcsLen input candidate := by
  rw [fuzzyMatch, fuzzyMatchCell_eq_lcsLen input candidate _ le_rfl _ le_rfl,
    List.take_length, List.take_length]

/-- A property preserved by every step of a fold holds of its result. -/
theorem foldl_preserve {α σ : Type} (P : σ → Prop) (step : σ → α → σ)
    (h : ∀ s a, P s → P (step s a)) :
    ∀ (l : List α) (s : σ), P s → P (l.foldl step s) := by
  intro l
  induction l with
  | nil => intro s hs; exact hs
  | cons a l ih => intro s hs; exact ih _ (h s a hs)

/-- Whenever `fuzzyFind` reports a positive match length, it also
reports a best entity. -/
theorem fuzzyFind_isSome_of_pos {T : Type} (input : String) (list : List T)
    (getCandidates : T → List String)
    (h : 0 < (fuzzyFind input list getCandidates).2) :
    (fuzzyFind input list getCandidates).1.isSome := by
  refine foldl_preserve
    (fun (acc : Option T × Nat × Nat) => 0 < acc.2.1 → acc.1.isSome = true)
    _ ?_ list ((none : Option T), 0, 0) (by simp) h
  intro s item hs
  refine foldl_preserve
    (fun (acc : Option T × Nat × Nat) => 0 < acc.2.1 → acc.1.isSome = true)
    _ ?_ (getCandidates item) s hs
  intro s2 cand hs2
  by_cases hcond : fuzzyMatch input.data (toLower cand).data > s2.2.1 ∨
      (fuzzyMatch input.data (toLower cand).data = s2.2.1 ∧
        (toLower cand).length < s2.2.2)
  · simp [hcond]
  · simpa [hcond] using hs2

/-! ## Claim theorems: entity resolution -/

/-- C6: for every pair of sequences, `fuzzyMatch` equals the length of
the longest common subsequence: its value is realized by a common
subsequence and bounds the length of every common subsequence.  (Go
applies `fuzzyMatch` to the byte sequences of its two strings; the
statement covers any element type with decidable equality.) -/
theorem fuzzyMatch_computes_lcs {β : Type} [DecidableEq β]
    (input candidate : List β) :
    IsGreatest {n : Nat | ∃ zs : List β,
      zs.Sublist input ∧ zs.Sublist candidate ∧ zs.length = n}
      (fuzzyMatch input candidate) := by
  constructor
  · obtain ⟨zs, h1, h2, h3⟩ := lcsLen_exists input candidate
    exact ⟨zs, h1, h2, by rw [h3, fuzzyMatch_eq_lcsLen]⟩
  · rintro n ⟨zs, h1, h2, rfl⟩
    rw [fuzzyMatch_eq_lcsLen]
    exact length_le_lcsLen _ _ _ h1 h2

/-- C10: the station finder with the empty query name (and no code, or
a code absent from the catalog) finds "Secaucus Concourse" (SC): two
catalog stations (NF and SC) have an empty short name, the short-name
table maps the empty key to the later of them, the name/alias table has
no empty key, so the abbreviation lookup hits SC. -/
theorem Search_empty_name_hits_secaucus_concourse :
    Search (WithName FindStation "") =
        some (Station.mk "SC" "Secaucus Concourse" "") ∧
    Search (WithName (WithCode FindStation "QQ") "") =
        some (Station.mk "SC" "Secaucus Concourse" "") ∧
    mapFind stationsByName "" = none ∧
    mapFind stationsByShortName "" =
        some (Station.mk "SC" "Secaucus Concourse" "") ∧
    (Stations.filter (fun s => s.ShortName = "")).map (fun s => s.Code) =
        ["NF", "SC"] := by
  decide

/-- C7: `Search` performs its lookups in order and short-circuits: a
code-table hit wins regardless of the name; with the code step missed,
a name/alias-table hit wins; then an abbreviation-table hit; the fuzzy
match only runs after all three.  Concretely, station PH is found via
its registered alias "30th St. Phl." although its primary name
"Philadelphia" is entirely different from the query. -/
theorem Search_lookup_order :
    (∀ (T : Type) (f : FinderImpl T) (c : String) (item : T),
      f.code = some c → mapFind f.byCode (toLower c) = some item →
      Search f = some item) ∧
    (∀ (T : Type) (f : FinderImpl T) (nm : String) (item : T),
      (∀ c, f.code = some c → mapFind f.byCode (toLower c) = none) →
      f.name = some nm → mapFind f.byName (toLower nm) = some item →
      Search f = some item) ∧
    (∀ (T : Type) (f : FinderImpl T) (nm : String) (item : T),
      (∀ c, f.code = some c → mapFind f.byCode (toLower c) = none) →
      f.name = some nm → mapFind f.byName (toLower nm) = none →
      mapFind f.byAbbr (toLower nm) = some item →
      Search f = some item) ∧
    (mapFind stationsByName (toLower "30th St. Phl.") =
        some (Station.mk "PH" "Philadelphia" "Philadelphia") ∧
      Search (WithName FindStation "30th St. Phl.") =
        some (Station.mk "PH" "Philadelphia" "Philadelphia")) := by
  refine ⟨?_, ?_, ?_, by decide, by decide⟩
  · intro T f c item hc hm
    simp [Search, hc, hm]
  · intro T f nm item hcode hname hbyName
    cases hfc : f.code with
    | none => simp [Search, hfc, hname, hbyName]
    | some c => simp [Search, hfc, hcode c hfc, hname, hbyName]
  · intro T f nm item hcode hname hbyName hbyAbbr
    cases hfc : f.code with
    | none => simp [Search, hfc, hname, hbyName, hbyAbbr]
    | some c => simp [Search, hfc, hcode c hfc, hname, hbyName, hbyAbbr]

/-- Witness for `Search_lookup_order` at a concrete input: the
case-insensitive code lookup "ny" finds New York Penn Station. -/
theorem Search_lookup_order_witness :
    Search (WithCode FindStation "ny") =
      some (Station.mk "NY" "New York Penn Station" "New York") :=
  Search_lookup_order.1 Station (WithCode FindStation "ny") "ny"
    (Station.mk "NY" "New York Penn Station" "New York") rfl (by decide)

/-- C5: once the exact lookups miss, `Search` accepts the fuzzy result
exactly when `matchLen > 2` and `matchLen ≥ len(query)/4`, both over
the lowercased query name; a query of length 8 against a sole candidate
of true LCS length 2 is not found, and of true LCS length 3 is found. -/
theorem Search_fuzzy_acceptance_threshold :
    (∀ (T : Type) (f : FinderImpl T) (nm : String),
      f.code = none → f.name = some nm →
      mapFind f.byName (toLower nm) = none →
      mapFind f.byAbbr (toLower nm) = none →
      (Search f =
        if (fuzzyFind (toLower nm) f.list f.getCandidates).2 > 2 ∧
            (fuzzyFind (toLower nm) f.list f.getCandidates).2 ≥
              (toLower nm).length / 4 then
          (fuzzyFind (toLower nm) f.list f.getCandidates).1
        else none) ∧
      ((Search f).isSome ↔
        (fuzzyFind (toLower nm) f.list f.getCandidates).2 > 2 ∧
          (fuzzyFind (toLower nm) f.list f.getCandidates).2 ≥
            (toLower nm).length / 4)) ∧
    lcsLen "abcdefgh".data (toLower "ab").data = 2 ∧
    Search (WithName (soleCandidateFinder "ab") "abcdefgh") = none ∧
    lcsLen "abcdefgh".data (toLower "abc").data = 3 ∧
    Search (WithName (soleCandidateFinder "abc") "abcdefgh") =
      some (Station.mk "ZZ" "abc" "") := by
  refine ⟨?_, by decide, by decide, by decide, by decide⟩
  intro T f nm hc hn h1 h2
  have heq : Search f =
      if (fuzzyFind (toLower nm) f.list f.getCandidates).2 > 2 ∧
          (fuzzyFind (toLower nm) f.list f.getCandidates).2 ≥
            (toLower nm).length / 4 then
        (fuzzyFind (toLower nm) f.list f.getCandidates).1
      else none := by
    simp [Search, hc, hn, h1, h2]
  refine ⟨heq, ?_⟩
  rw [heq]
  by_cases hcond : (fuzzyFind (toLower nm) f.list f.getCandidates).2 > 2 ∧
      (fuzzyFind (toLower nm) f.list f.getCandidates).2 ≥
        (toLower nm).length / 4
  · rw [if_pos hcond]
    have hpos : (fuzzyFind (toLower nm) f.list f.getCandidates).1.isSome :=
      fuzzyFind_isSome_of_pos _ _ _ (by omega)
    exact iff_of_true hpos hcond
  · rw [if_neg hcond]
    simp [hcond]

/-- Witness for `Search_fuzzy_acceptance_threshold` at a concrete
input: the fuzzy step on the sole candidate "abc". -/
theorem Search_fuzzy_acceptance_threshold_witness :
    Search (WithName (soleCandidateFinder "abc") "abcdefgh") =
      if (fuzzyFind (toLower "abcdefgh") (soleCandidateFinder "abc").list
            (soleCandidateFinder "abc").getCandidates).2 > 2 ∧
          (fuzzyFind (toLower "abcdefgh") (soleCandidateFinder "abc").list
            (soleCandidateFinder "abc").getCandidates).2 ≥
            (toLower "abcdefgh").length / 4 then
        (fuzzyFind (toLower "abcdefgh") (soleCandidateFinder "abc").list
          (soleCandidateFinder "abc").getCandidates).1
      else none :=
  (Search_fuzzy_acceptance_threshold.1 Station
    (WithName (soleCandidateFinder "abc") "abcdefgh") "abcdefgh"
    rfl rfl (by decide) (by decide)).1

/-- C8: `SearchOrSynthesize` never fails: it returns the found entity
on a hit and otherwise a synthesized one; the synthesized station takes
the supplied code (else the sentinel "XX"), the supplied name (else
"Unknown " followed by the code), and the first 14 characters of that
name as short name; the synthesized line takes the sentinel prefix "XX"
followed by its code as abbreviation.  "For an unknown code and no
name" (the sentinel case) the result is code "XX", name "Unknown XX". -/
theorem SearchOrSynthesize_total :
    (∀ (T : Type) (f : FinderImpl T) (item : T),
      Search f = some item → SearchOrSynthesize f = item) ∧
    (∀ (T : Type) (f : FinderImpl T),
      Search f = none → SearchOrSynthesize f = f.synthesize f.code f.name) ∧
    (∀ (co nameOpt : Option String),
      FindStation.synthesize co nameOpt =
        Station.mk (co.getD "XX")
          (nameOpt.getD ("Unknown " ++ co.getD "XX"))
          ((nameOpt.getD ("Unknown " ++ co.getD "XX")).take
            (min 14 (nameOpt.getD ("Unknown " ++ co.getD "XX")).length))) ∧
    (∀ (co nameOpt : Option String),
      FindLine.synthesize co nameOpt =
        Line.mk (co.getD "XX") (nameOpt.getD ("Unknown " ++ co.getD "XX"))
          ("XX" ++ co.getD "XX") "" []) ∧
    SearchOrSynthesize FindStation =
      Station.mk "XX" "Unknown XX" "Unknown XX" ∧
    SearchOrSynthesize (WithCode FindStation "QQ") =
      Station.mk "QQ" "Unknown QQ" "Unknown QQ" ∧
    SearchOrSynthesize FindLine = Line.mk "XX" "Unknown XX" "XXXX" "" [] := by
  refine ⟨?_, ?_, ?_, ?_, by decide, by decide, by decide⟩
  · intro T f item h
    simp [SearchOrSynthesize, h]
  · intro T f h
    simp [SearchOrSynthesize, h]
  · intro co nameOpt
    cases co <;> cases nameOpt <;> rfl
  · intro co nameOpt
    cases co <;> cases nameOpt <;> rfl

/-- Witness for `SearchOrSynthesize_total` at a concrete input: a hit
is returned as-is. -/
theorem SearchOrSynthesize_total_witness :
    SearchOrSynthesize (WithName FindStation "hoboken") =
      Station.mk "HB" "Hoboken" "Hoboken" :=
  SearchOrSynthesize_total.1 Station (WithName FindStation "hoboken")
    (Station.mk "HB" "Hoboken" "Hoboken") (by decide)

/-! ## Claim theorems: response parsing -/

/-- C9: on a status in [200,300), an empty body yields
`MissingCredentials` — for every decoder, so no JSON decoding is ever
attempted — while a non-empty body is decoded by the method's typed
decoder, a decoding failure yielding the decode error that carries the
endpoint name. -/
theorem ParseResponse_success_status {O : Type} (name : String)
    (decode : String → Option O) (decodeEnvelope : String → Option String)
    (status : Nat) (body : String)
    (h200 : 200 ≤ status) (h300 : status < 300) :
    ParseResponse name decode decodeEnvelope status "" =
      Except.error ApiError.missingCredentials ∧
    (body ≠ "" →
      (decode body = none →
        ParseResponse name decode decodeEnvelope status body =
          Except.error (ApiError.decodeError name)) ∧
      (∀ o : O, decode body = some o →
        ParseResponse name decode decodeEnvelope status body =
          Except.ok o)) := by
  have hst : ¬(status < 200 ∨ 300 ≤ status) := by omega
  refine ⟨by simp [ParseResponse, hst], fun hbody => ?_⟩
  have hlen : ¬(body.length = 0) := fun h0 =>
    hbody (String.ext (List.length_eq_zero.mp h0))
  exact ⟨fun hdec => by simp [ParseResponse, hst, hlen, hdec],
    fun o hdec => by simp [ParseResponse, hst, hlen, hdec]⟩

/-- Witness for `ParseResponse_success_status` at concrete inputs. -/
theorem ParseResponse_success_status_witness :
    ParseResponse "getTrainSchedule" (fun _ => (none : Option Nat))
      (fun _ => none) 200 "" = Except.error ApiError.missingCredentials ∧
    ParseResponse "getTrainSchedule" (fun _ => (none : Option Nat))
      (fun _ => none) 200 "x" =
      Except.error (ApiError.decodeError "getTrainSchedule") := by
  constructor
  · exact (ParseResponse_success_status "getTrainSchedule"
      (fun _ => (none : Option Nat)) (fun _ => none) 200 "x"
      (by decide) (by decide)).1
  · exact ((ParseResponse_success_status "getTrainSchedule"
      (fun _ => (none : Option Nat)) (fun _ => none) 200 "x"
      (by decide) (by decide)).2 (by decide)).1 rfl

/-! ## Claim theorems: the token-managed request pipeline -/

/-- The result of `refreshToken` is never the InvalidToken sentinel,
unless the token-issuance call itself reported it. -/
theorem refreshToken_no_invalidToken
    (getTok : Nat → Except ApiError GetTokenResponse) (s : ClientState)
    (calls : Nat) (oldToken : String)
    (hTok : getTok calls ≠ Except.error ApiError.invalidToken) :
    (refreshToken getTok s calls oldToken).1 ≠
      Except.error ApiError.invalidToken := by
  unfold refreshToken
  cases s.credentials with
  | none => simp
  | some cred =>
    cases hg : getTok calls with
    | error e =>
      by_cases hobs : s.token ≠ oldToken
      · simp [hobs, hg]
      · simp [hobs, hg]
        intro h
        apply hTok
        rw [hg, h]
    | ok out =>
      by_cases hobs : s.token ≠ oldToken <;>
        by_cases hauth : out.Authenticated ≠ "True" <;>
          simp [hobs, hg, hauth]

/-- C2: the retry pipeline returns a first result other than
InvalidToken unchanged; on InvalidToken it refreshes, returning the
refresh failure if refresh fails, and otherwise re-reads the token,
re-issues the request exactly once and returns that second result; the
outcome depends only on the first two executor invocations (no further
retries). -/
theorem request_retry_policy {O : Type}
    (exec : Nat → String → Except ApiError O)
    (getTok : Nat → Except ApiError GetTokenResponse) (s : ClientState) :
    (exec 0 s.token ≠ Except.error ApiError.invalidToken →
      request exec getTok s = (exec 0 s.token, s)) ∧
    (exec 0 s.token = Except.error ApiError.invalidToken →
      (∀ e s2 n, refreshToken getTok s 0 s.token = (Except.error e, s2, n) →
        request exec getTok s = (Except.error e, s2)) ∧
      (∀ s2 n, refreshToken getTok s 0 s.token = (Except.ok (), s2, n) →
        request exec getTok s = (exec 1 s2.token, s2))) ∧
    (∀ exec2 : Nat → String → Except ApiError O,
      exec2 0 = exec 0 → exec2 1 = exec 1 →
      request exec2 getTok s = request exec getTok s) := by
  refine ⟨?_, fun hinv => ⟨?_, ?_⟩, ?_⟩
  · intro hne
    cases hex : exec 0 s.token with
    | ok v => simp [request, hex]
    | error e =>
      cases e <;> first
        | exact absurd hex hne
        | simp [request, hex]
  · intro e s2 n href
    simp [request, hinv, href]
  · intro s2 n href
    simp [request, hinv, href]
  · intro exec2 h0 h1
    simp only [request, h0, h1]

/-- Witness for `request_retry_policy` at a concrete input: a
successful first call is returned unchanged. -/
theorem request_retry_policy_witness :
    request (fun _ _ => Except.ok 7)
      (fun _ => Except.ok (GetTokenResponse.mk "True" "t2"))
      (ClientState.mk none "t1") =
      (Except.ok 7, ClientState.mk none "t1") :=
  (request_retry_policy (fun _ _ => Except.ok 7)
    (fun _ => Except.ok (GetTokenResponse.mk "True" "t2"))
    (ClientState.mk none "t1")).1 (by simp)

/-- C1 is refuted as stated: in a world where the primary endpoint
reports "Invalid token." on both attempts while the refresh succeeds
(Authenticated "True", fresh token), `request` returns the second
attempt's InvalidToken to the caller. -/
theorem request_returns_invalidToken_on_double_failure :
    (request (O := Unit) (fun _ _ => Except.error ApiError.invalidToken)
      (fun _ => Except.ok (GetTokenResponse.mk "True" "newtoken"))
      (ClientState.mk (some (Credentials.mk "user" "pass")) "oldtoken")).1 =
      Except.error ApiError.invalidToken := by
  rfl

/-- C1 (amended): provided the token-issuance call itself does not
report InvalidToken, `request` returns InvalidToken only when the first
attempt reported it, the refresh succeeded, and the single retried
attempt reported it again; every other first InvalidToken is resolved
into the retry's result or the refresh attempt's failure
(MissingCredentials, BadCredentials, or the issuance call's
transport/decode/API error). -/
theorem request_invalidToken_only_from_retry {O : Type}
    (exec : Nat → String → Except ApiError O)
    (getTok : Nat → Except ApiError GetTokenResponse) (s : ClientState)
    (hTok : getTok 0 ≠ Except.error ApiError.invalidToken)
    (h : (request exec getTok s).1 = Except.error ApiError.invalidToken) :
    exec 0 s.token = Except.error ApiError.invalidToken ∧
    (refreshToken getTok s 0 s.token).1 = Except.ok () ∧
    exec 1 ((refreshToken getTok s 0 s.token).2.1).token =
      Except.error ApiError.invalidToken := by
  cases hex : exec 0 s.token with
  | ok v => simp [request, hex] at h
  | error e =>
    cases e with
    | invalidToken =>
      rcases hr : refreshToken getTok s 0 s.token with ⟨r, s2, n⟩
      cases r with
      | error e2 =>
        have h2 : e2 = ApiError.invalidToken := by
          simpa [request, hex, hr] using h
        refine absurd ?_ (refreshToken_no_invalidToken getTok s 0 s.token hTok)
        rw [hr, h2]
      | ok u =>
        cases u
        have h3 : exec 1 s2.token = Except.error ApiError.invalidToken := by
          simpa [request, hex, hr] using h
        exact ⟨rfl, rfl, h3⟩
    | badCredentials => simp [request, hex] at h
    | missingCredentials => simp [request, hex] at h
    | railDataError msg => simp [request, hex] at h
    | statusError m st => simp [request, hex] at h
    | decodeError m => simp [request, hex] at h
    | transportError m => simp [request, hex] at h

/-- Witness for `request_invalidToken_only_from_retry` at the concrete
double-failure world. -/
theorem request_invalidToken_only_from_retry_witness :
    (fun (_ : Nat) (_ : String) =>
        Except.error (ε := ApiError) (α := Unit) ApiError.invalidToken) 0
      (ClientState.mk (some (Credentials.mk "user" "pass")) "oldtoken").token =
      Except.error ApiError.invalidToken ∧
    (refreshToken (fun _ => Except.ok (GetTokenResponse.mk "True" "newtoken"))
      (ClientState.mk (some (Credentials.mk "user" "pass")) "oldtoken") 0
      "oldtoken").1 = Except.ok () ∧
    (fun (_ : Nat) (_ : String) =>
        Except.error (ε := ApiError) (α := Unit) ApiError.invalidToken) 1
      ((refreshToken
        (fun _ => Except.ok (GetTokenResponse.mk "True" "newtoken"))
        (ClientState.mk (some (Credentials.mk "user" "pass")) "oldtoken") 0
        "oldtoken").2.1).token = Except.error ApiError.invalidToken :=
  request_invalidToken_only_from_retry
    (fun _ _ => Except.error ApiError.invalidToken)
    (fun _ => Except.ok (GetTokenResponse.mk "True" "newtoken"))
    (ClientState.mk (some (Credentials.mk "user" "pass")) "oldtoken")
    (by simp) (by rfl)

/-- C3 is refuted as stated: with two callers racing on the same stale
token and the issuance endpoint answering Authenticated "False", the
first refresh fails with BadCredentials and leaves the stale token in
place, so the second caller issues another network call: two calls for
a single distinct stale-token value. -/
theorem refreshRace_two_network_calls_on_failure :
    (refreshRace (fun _ => Except.ok (GetTokenResponse.mk "False" ""))
      "stale" 2 (ClientState.mk (some (Credentials.mk "u" "p")) "stale")
      0).2.2 = 2 := by
  decide

/-- Once the stored token differs from the stale value (and credentials
are configured), every further racing refresh short-circuits: success,
no state change, no network call. -/
theorem refreshRace_stable (getTok : Nat → Except ApiError GetTokenResponse)
    (stale : String) :
    ∀ (m : Nat) (s : ClientState) (calls : Nat) (cred : Credentials),
      s.credentials = some cred → s.token ≠ stale →
      refreshRace getTok stale m s calls =
        (List.replicate m (Except.ok ()), s, calls) := by
  intro m
  induction m with
  | zero =>
    intro s calls cred _ _
    simp [refreshRace]
  | succ m ih =>
    intro s calls cred hc ht
    have hr : refreshToken getTok s calls stale = (Except.ok (), s, calls) := by
      unfold refreshToken
      rw [hc]
      simp [ht]
    simp [refreshRace, hr, ih s calls cred hc ht, List.replicate_succ]

/-- C3 (amended): provided the winning issuance call succeeds with
Authenticated "True" and a token different from the stale value, the
compare-and-set refresh makes exactly one network call for the whole
race: the first caller issues it and stores the new token, and every
later caller observes the updated token and returns success without a
network call. -/
theorem refreshRace_at_most_one_network_call
    (getTok : Nat → Except ApiError GetTokenResponse) (stale : String)
    (n : Nat) (cred : Credentials) (out : GetTokenResponse)
    (hTok : getTok 0 = Except.ok out) (hAuth : out.Authenticated = "True")
    (hNew : out.UserToken ≠ stale) :
    refreshRace getTok stale (n + 1)
        (ClientState.mk (some cred) stale) 0 =
      (List.replicate (n + 1) (Except.ok ()),
        ClientState.mk (some cred) out.UserToken, 1) := by
  have hr : refreshToken getTok (ClientState.mk (some cred) stale) 0 stale =
      (Except.ok (), ClientState.mk (some cred) out.UserToken, 1) := by
    unfold refreshToken
    simp [hTok, hAuth]
  have hrest := refreshRace_stable getTok stale n
    (ClientState.mk (some cred) out.UserToken) 1 cred rfl (by simpa using hNew)
  simp [refreshRace, hr, hrest, List.replicate_succ]

/-- Witness for `refreshRace_at_most_one_network_call` at a concrete
input: two callers, one network call. -/
theorem refreshRace_at_most_one_network_call_witness :
    refreshRace (fun _ => Except.ok (GetTokenResponse.mk "True" "fresh"))
        "stale" 2 (ClientState.mk (some (Credentials.mk "u" "p")) "stale") 0 =
      ([Except.ok (), Except.ok ()],
        ClientState.mk (some (Credentials.mk "u" "p")) "fresh", 1) := by
  have h := refreshRace_at_most_one_network_call
    (fun _ => Except.ok (GetTokenResponse.mk "True" "fresh")) "stale" 1
    (Credentials.mk "u" "p") (GetTokenResponse.mk "True" "fresh")
    rfl rfl (by decide)
  simpa using h

/-- C4 is refuted as stated: without configured credentials, a refresh
whose observed token already differs from the stored one still fails
with MissingCredentials instead of returning success (the credentials
check precedes the compare-and-set check). -/
theorem refreshToken_fails_without_credentials_even_if_token_changed :
    refreshToken (fun _ => Except.ok (GetTokenResponse.mk "True" "x"))
      (ClientState.mk none "b") 0 "a" =
      (Except.error ApiError.missingCredentials, ClientState.mk none "b", 0) := by
  rfl

/-- Frame facts about one `refreshToken` call: the credentials are
never modified, and the token is modified only when the stored token
equaled the observed one at the locked check. -/
theorem refreshToken_state (getTok : Nat → Except ApiError GetTokenResponse)
    (s : ClientState) (calls : Nat) (observed : String) :
    ((refreshToken getTok s calls observed).2.1).credentials =
      s.credentials ∧
    (((refreshToken getTok s calls observed).2.1).token ≠ s.token →
      s.token = observed) := by
  rcases s with ⟨creds, tok⟩
  rcases creds with _ | cred
  · simp [refreshToken]
  · unfold refreshToken
    by_cases ht : tok ≠ observed
    · simp [ht]
    · push_neg at ht
      subst ht
      cases hg : getTok calls with
      | error e => simp [hg]
      | ok out =>
        by_cases hauth : out.Authenticated ≠ "True" <;> simp [hg, hauth]

/-- C4 (amended): with credentials configured, a refresh whose observed
token no longer equals the stored one returns success without a network
call and leaves the state unchanged; without credentials it fails with
MissingCredentials, equally without a network call or state change; and
in every case the stored token is replaced only when it still equals
the observed token at the locked check, the credentials never
changing. -/
theorem refreshToken_compare_and_set
    (getTok : Nat → Except ApiError GetTokenResponse) (s : ClientState)
    (calls : Nat) (observed : String) :
    (∀ cred, s.credentials = some cred → s.token ≠ observed →
      refreshToken getTok s calls observed = (Except.ok (), s, calls)) ∧
    (s.credentials = none →
      refreshToken getTok s calls observed =
        (Except.error ApiError.missingCredentials, s, calls)) ∧
    (∀ r s2 calls2, refreshToken getTok s calls observed = (r, s2, calls2) →
      s2.token ≠ s.token → s.token = observed) ∧
    (∀ r s2 calls2, refreshToken getTok s calls observed = (r, s2, calls2) →
      s2.credentials = s.credentials) := by
  refine ⟨?_, ?_, ?_, ?_⟩
  · intro cred hc ht
    unfold refreshToken
    rw [hc]
    simp [ht]
  · intro hc
    unfold refreshToken
    rw [hc]
  · intro r s2 calls2 hr hne
    have hs2 : s2 = (refreshToken getTok s calls observed).2.1 := by rw [hr]
    exact (refreshToken_state getTok s calls observed).2 (hs2 ▸ hne)
  · intro r s2 calls2 hr
    have hs2 : s2 = (refreshToken getTok s calls observed).2.1 := by rw [hr]
    rw [hs2]
    exact (refreshToken_state getTok s calls observed).1

/-- Witness for `refreshToken_compare_and_set` at a concrete input:
the short-circuit on an already-updated token. -/
theorem refreshToken_compare_and_set_witness :
    refreshToken (fun _ => Except.ok (GetTokenResponse.mk "True" "x"))
      (ClientState.mk (some (Credentials.mk "u" "p")) "b") 5 "a" =
      (Except.ok (), ClientState.mk (some (Credentials.mk "u" "p")) "b", 5) :=
  (refreshToken_compare_and_set
    (fun _ => Except.ok (GetTokenResponse.mk "True" "x"))
    (ClientState.mk (some (Credentials.mk "u" "p")) "b") 5 "a").1
    (Credentials.mk "u" "p") rfl (by decide)

end Raildata
